import Mathlib

/-!
# TuneForge — shallow embedding of the chunk-to-dataset processing engine

This file embeds, in Lean 4, the parts of the TuneForge repository that the
verified claims are about:

* the processing engine `processChunks` (src/cli/processingEngine.ts): fan-out
  of one generation sub-task per applicable dataset type per content chunk,
  settle-all semantics, and accumulation of samples into the shared results map;
* the output-inclusion filter of `processContent` together with the alias maps
  `mapStandardTypeToLegacy` and `mapIndicTypeToBase`;
* the serializer `saveInFormat` (src/formatters/datasetFormatters.ts);
* the generators `generateQADataset`, `generateRPDataset`,
  `generateParallelCorpusDataset` (src/generators/datasetGenerators.ts) and
  `generateIndicSummarizationDataset` (src/generators/indicDatasetGenerators.ts).

The external AI-model collaborator (`generateObject` of the `ai` package) is
modelled by an explicit argument of type `Except String (List σ)`: `.ok samples`
is a fulfilled call whose object passed schema validation, `.error e` is any
throw of the underlying call or of schema validation.  A generation sub-task
outcome inside the engine is modelled by an oracle returning `Option (List α)`:
`none` is a rejected generator promise (caught by the engine's per-task
`.catch`), `some samples` a fulfilled one.  Console logging and progress-bar
drawing are side effects outside the embedding; warning messages that matter to
a claim are modelled as explicit string lists.
-/

namespace TuneForge

/-- The 20 dataset type identifiers handled by `processChunks`
(keys of the `DatasetResults` record in src/types/index.ts). -/
inductive DatasetType where
  | qa | rp | classifier | multilingual | parallel | instruction | summarization
  | parallel_corpora | monolingual_text | instruction_tuning | benchmark_evaluation
  | domain_specific | web_crawled
  | alpaca_instruct | sharegpt_conversations | raw_corpus
  | indic_summarization | indic_translation | indic_qa | indic_crosslingual_qa
  deriving DecidableEq, Repr

/-- The string key of a dataset type, as it appears in `options.type`
and as a key of the results object. -/
def DatasetType.key : DatasetType → String
  | .qa => "qa"
  | .rp => "rp"
  | .classifier => "classifier"
  | .multilingual => "multilingual"
  | .parallel => "parallel"
  | .instruction => "instruction"
  | .summarization => "summarization"
  | .parallel_corpora => "parallel_corpora"
  | .monolingual_text => "monolingual_text"
  | .instruction_tuning => "instruction_tuning"
  | .benchmark_evaluation => "benchmark_evaluation"
  | .domain_specific => "domain_specific"
  | .web_crawled => "web_crawled"
  | .alpaca_instruct => "alpaca_instruct"
  | .sharegpt_conversations => "sharegpt_conversations"
  | .raw_corpus => "raw_corpus"
  | .indic_summarization => "indic_summarization"
  | .indic_translation => "indic_translation"
  | .indic_qa => "indic_qa"
  | .indic_crosslingual_qa => "indic_crosslingual_qa"

/-- The CLI options consumed by the fan-out logic of `processChunks`:
the explicit `--type` list and the `--dataset-format` category shortcut. -/
structure EngineOptions where
  type : List String
  datasetFormat : String
  deriving DecidableEq, Repr

/-- Guard of the conditional push of one generation sub-task in `processChunks`
(src/cli/processingEngine.ts, lines 553-814): a legacy type runs iff it is in
`options.type`; a standard / modern / indic type runs iff its category shortcut
is selected by `--dataset-format` or it is explicitly listed. -/
def typeGuard (o : EngineOptions) : DatasetType → Bool
  | .qa => o.type.contains "qa"
  | .rp => o.type.contains "rp"
  | .classifier => o.type.contains "classifier"
  | .multilingual => o.type.contains "multilingual"
  | .parallel => o.type.contains "parallel"
  | .instruction => o.type.contains "instruction"
  | .summarization => o.type.contains "summarization"
  | .parallel_corpora => o.datasetFormat == "standard" || o.type.contains "parallel_corpora"
  | .monolingual_text => o.datasetFormat == "standard" || o.type.contains "monolingual_text"
  | .instruction_tuning => o.datasetFormat == "standard" || o.type.contains "instruction_tuning"
  | .benchmark_evaluation => o.datasetFormat == "standard" || o.type.contains "benchmark_evaluation"
  | .domain_specific => o.datasetFormat == "standard" || o.type.contains "domain_specific"
  | .web_crawled => o.datasetFormat == "standard" || o.type.contains "web_crawled"
  | .alpaca_instruct => o.datasetFormat == "modern" || o.type.contains "alpaca_instruct"
  | .sharegpt_conversations => o.datasetFormat == "modern" || o.type.contains "sharegpt_conversations"
  | .raw_corpus => o.datasetFormat == "modern" || o.type.contains "raw_corpus"
  | .indic_summarization => o.datasetFormat == "indic" || o.type.contains "indic_summarization"
  | .indic_translation => o.datasetFormat == "indic" || o.type.contains "indic_translation"
  | .indic_qa => o.datasetFormat == "indic" || o.type.contains "indic_qa"
  | .indic_crosslingual_qa => o.datasetFormat == "indic" || o.type.contains "indic_crosslingual_qa"

/-- The order in which `processChunks` pushes generation sub-tasks
for one chunk (source order of the conditional blocks). -/
def generatorOrder : List DatasetType :=
  [.qa, .rp, .classifier, .multilingual, .parallel, .instruction, .summarization,
   .parallel_corpora, .monolingual_text, .instruction_tuning, .benchmark_evaluation,
   .domain_specific, .web_crawled,
   .alpaca_instruct, .sharegpt_conversations, .raw_corpus,
   .indic_summarization, .indic_translation, .indic_qa, .indic_crosslingual_qa]

/-- The sub-tasks one chunk task creates: one per type whose guard holds,
in source order. -/
def subTasks (o : EngineOptions) : List DatasetType :=
  generatorOrder.filter (typeGuard o)

/-- A generation sub-task oracle: given the chunk text, the chunk index and the
dataset type, the settled outcome of the generator promise for that sub-task
(`none` = rejected, `some samples` = fulfilled with a sample list).
The per-type sample shapes are abstracted into one type `α`; the only
shape-changing append in the engine (the `summarization` field rename
`document ↦ text`) is length-preserving and is absorbed into the oracle. -/
def Oracle (α : Type) := String → Nat → DatasetType → Option (List α)

/-- Engine state: the log of generation sub-tasks issued so far
(chunk index × type, in issue order) and the accumulated per-type results
(the `examples` arrays of the shared `results` object). -/
structure EngineState (α : Type) where
  log : List (Nat × DatasetType)
  res : DatasetType → List α

/-- One generation sub-task of `processChunks`: it is issued (logged), and when
it settles, a fulfilled outcome appends its samples to the results entry of its
type while a rejected outcome is caught by the `.catch` handler and appends
nothing. -/
def subTaskStep {α : Type} (gen : Oracle α) (chunk : String) (i : Nat)
    (st : EngineState α) (t : DatasetType) : EngineState α :=
  { log := st.log ++ [(i, t)]
    res := fun u =>
      match gen chunk i t with
      | some data => if u = t then st.res u ++ data else st.res u
      | none => st.res u }

/-- One chunk task: creates and settles one sub-task per applicable type
(`await Promise.allSettled(generationTasks)` — the chunk task completes only
after every sub-task has settled, regardless of individual outcomes). -/
def chunkTaskRun {α : Type} (gen : Oracle α) (o : EngineOptions)
    (i : Nat) (chunk : String) (st : EngineState α) : EngineState α :=
  (subTasks o).foldl (subTaskStep gen chunk i) st

/-- Sequential execution of the chunk tasks of `processChunks`, starting at
chunk index `i`.  Under the cooperative (single event loop) concurrency of the
source, the multiset of issued sub-tasks and the per-type sample multisets are
those of this sequential model; only the interleaving order differs. -/
def processChunksAux {α : Type} (gen : Oracle α) (o : EngineOptions) :
    Nat → List String → EngineState α → EngineState α
  | _, [], st => st
  | i, c :: cs, st => processChunksAux gen o (i + 1) cs (chunkTaskRun gen o i c st)

/-- Embedding of `processChunks` (src/cli/processingEngine.ts, lines 489-827): results start
empty for every type; each chunk fans out its sub-tasks and their successful
outcomes are appended. -/
def processChunks {α : Type} (gen : Oracle α) (o : EngineOptions)
    (chunks : List String) : EngineState α :=
  processChunksAux gen o 0 chunks { log := [], res := fun _ => [] }

/-! ### Characterization lemmas for the engine -/

theorem generatorOrder_nodup : generatorOrder.Nodup := by decide

theorem subTasks_nodup (o : EngineOptions) : (subTasks o).Nodup :=
  generatorOrder_nodup.filter _

theorem foldl_subTaskStep_log {α : Type} (gen : Oracle α) (c : String) (i : Nat)
    (l : List DatasetType) (st : EngineState α) :
    ((l.foldl (subTaskStep gen c i) st).log) = st.log ++ l.map (fun t => (i, t)) := by
  induction l generalizing st with
  | nil => simp
  | cons t ts ih =>
      simp only [List.foldl_cons, ih, List.map_cons]
      simp [subTaskStep]

theorem foldl_subTaskStep_res {α : Type} (gen : Oracle α) (c : String) (i : Nat)
    (l : List DatasetType) (hl : l.Nodup) (st : EngineState α) (u : DatasetType) :
    ((l.foldl (subTaskStep gen c i) st).res) u
      = st.res u ++ (if u ∈ l then (gen c i u).getD [] else []) := by
  induction l generalizing st with
  | nil => simp
  | cons t ts ih =>
      rcases List.nodup_cons.mp hl with ⟨htts, hts⟩
      by_cases hu : u = t
      · subst hu
        simp only [List.foldl_cons, ih hts, List.mem_cons, true_or, if_pos]
        have : u ∉ ts := htts
        simp [subTaskStep, this, Option.getD]
        cases h : gen c i u <;> simp [h]
      · simp only [List.foldl_cons, ih hts]
        have hmem : (if u ∈ t :: ts then (gen c i u).getD [] else [])
            = (if u ∈ ts then (gen c i u).getD [] else []) := by
          simp [List.mem_cons, hu]
        rw [hmem]
        have : (subTaskStep gen c i st t).res u = st.res u := by
          simp only [subTaskStep]
          cases h : gen c i t <;> simp [h, hu]
        rw [this]

/-- The expected sub-task log for chunks starting at index `i`. -/
def engineLogSpec (o : EngineOptions) : Nat → List String → List (Nat × DatasetType)
  | _, [] => []
  | i, _ :: cs => (subTasks o).map (fun t => (i, t)) ++ engineLogSpec o (i + 1) cs

/-- The expected accumulated samples of type `u` for chunks starting at `i`. -/
def engineResSpec {α : Type} (gen : Oracle α) (o : EngineOptions) (u : DatasetType) :
    Nat → List String → List α
  | _, [] => []
  | i, c :: cs =>
      (if u ∈ subTasks o then (gen c i u).getD [] else [])
        ++ engineResSpec gen o u (i + 1) cs

theorem processChunksAux_log {α : Type} (gen : Oracle α) (o : EngineOptions)
    (cs : List String) (i : Nat) (st : EngineState α) :
    (processChunksAux gen o i cs st).log = st.log ++ engineLogSpec o i cs := by
  induction cs generalizing i st with
  | nil => simp [processChunksAux, engineLogSpec]
  | cons c cs ih =>
      simp only [processChunksAux, engineLogSpec, ih]
      rw [chunkTaskRun, foldl_subTaskStep_log]
      simp [List.append_assoc]

theorem processChunksAux_res {α : Type} (gen : Oracle α) (o : EngineOptions)
    (cs : List String) (i : Nat) (st : EngineState α) (u : DatasetType) :
    (processChunksAux gen o i cs st).res u = st.res u ++ engineResSpec gen o u i cs := by
  induction cs generalizing i st with
  | nil => simp [processChunksAux, engineResSpec]
  | cons c cs ih =>
      simp only [processChunksAux, engineResSpec, ih]
      rw [chunkTaskRun, foldl_subTaskStep_res gen c i _ (subTasks_nodup o)]
      simp [List.append_assoc]

theorem processChunks_log {α : Type} (gen : Oracle α) (o : EngineOptions)
    (chunks : List String) :
    (processChunks gen o chunks).log = engineLogSpec o 0 chunks := by
  rw [processChunks, processChunksAux_log]; rfl

theorem processChunks_res {α : Type} (gen : Oracle α) (o : EngineOptions)
    (chunks : List String) (u : DatasetType) :
    (processChunks gen o chunks).res u = engineResSpec gen o u 0 chunks := by
  rw [processChunks, processChunksAux_res]; rfl

theorem engineLogSpec_length (o : EngineOptions) (cs : List String) (i : Nat) :
    (engineLogSpec o i cs).length = cs.length * (subTasks o).length := by
  induction cs generalizing i with
  | nil => simp [engineLogSpec]
  | cons c cs ih =>
      simp only [engineLogSpec, List.length_append, List.length_map, ih, List.length_cons]
      ring

theorem mem_generatorOrder (t : DatasetType) : t ∈ generatorOrder := by
  cases t <;> decide

theorem mem_subTasks (o : EngineOptions) (t : DatasetType) :
    t ∈ subTasks o ↔ typeGuard o t = true := by
  simp [subTasks, List.mem_filter, mem_generatorOrder]

theorem engineLogSpec_mem (o : EngineOptions) (cs : List String) :
    ∀ (i j : Nat) (t : DatasetType),
      ((j, t) ∈ engineLogSpec o i cs) ↔ (i ≤ j ∧ j < i + cs.length ∧ t ∈ subTasks o) := by
  induction cs with
  | nil =>
      intro i j t
      simp [engineLogSpec]
      omega
  | cons c cs ih =>
      intro i j t
      simp only [engineLogSpec, List.mem_append, List.mem_map, Prod.mk.injEq, ih,
        List.length_cons]
      constructor
      · rintro (⟨u, hu, hi, ht⟩ | ⟨h1, h2, h3⟩)
        · subst hi; subst ht
          exact ⟨le_rfl, by omega, hu⟩
        · exact ⟨by omega, by omega, h3⟩
      · rintro ⟨h1, h2, h3⟩
        by_cases hj : j = i
        · exact Or.inl ⟨t, h3, hj.symm, rfl⟩
        · exact Or.inr ⟨by omega, by omega, h3⟩

theorem engineResSpec_agree {α : Type} (gen gen' : Oracle α) (o : EngineOptions)
    (u : DatasetType) (h : ∀ c j, gen' c j u = gen c j u) :
    ∀ (i : Nat) (cs : List String),
      engineResSpec gen' o u i cs = engineResSpec gen o u i cs := by
  intro i cs
  induction cs generalizing i with
  | nil => rfl
  | cons c cs ih => simp [engineResSpec, h, ih]

theorem engineResSpec_mem {α : Type} (gen : Oracle α) (o : EngineOptions)
    (t : DatasetType) (cs : List String) :
    ∀ (i j : Nat) (cj : String), cs[j]? = some cj → t ∈ subTasks o →
      ∀ x ∈ (gen cj (i + j) t).getD [], x ∈ engineResSpec gen o t i cs := by
  induction cs with
  | nil => intro i j cj hj; simp at hj
  | cons c cs ih =>
      intro i j cj hj ht x hx
      cases j with
      | zero =>
          simp at hj
          subst hj
          simp only [engineResSpec, List.mem_append]
          exact Or.inl (by simpa [ht] using hx)
      | succ j' =>
          simp only [List.getElem?_cons_succ] at hj
          simp only [engineResSpec, List.mem_append]
          refine Or.inr (ih (i + 1) j' cj hj ht x ?_)
          have : i + 1 + j' = i + (j' + 1) := by omega
          rw [this]
          exact hx

/-- The outcome assignment equal to `gen` except that the generation sub-task
for chunk index `i` and type `t` rejects (its promise fails). -/
def failAt {α : Type} (gen : Oracle α) (i : Nat) (t : DatasetType) : Oracle α :=
  fun c j u => if j = i ∧ u = t then none else gen c j u

/-! ### Claims C1 and C2 -/

/-- C1: for a fixed list of N content chunks and a requested type configuration
selecting M generator types (the types whose guard holds, including the ones
implied by the `--dataset-format` category shortcut), `processChunks` issues
exactly N × M generation sub-tasks — one per applicable type per chunk — and the
issued sub-task log is identical for every outcome assignment, in particular
when any or all invocations fail. -/
theorem processChunks_fanout_complete {α : Type} (gen gen' : Oracle α)
    (o : EngineOptions) (chunks : List String) :
    (processChunks gen o chunks).log.length = chunks.length * (subTasks o).length
    ∧ (processChunks gen o chunks).log = (processChunks gen' o chunks).log
    ∧ (∀ (i : Nat) (t : DatasetType),
        ((i, t) ∈ (processChunks gen o chunks).log)
          ↔ (i < chunks.length ∧ typeGuard o t = true)) := by
  refine ⟨?_, ?_, ?_⟩
  · rw [processChunks_log, engineLogSpec_length]
  · rw [processChunks_log, processChunks_log]
  · intro i t
    rw [processChunks_log, engineLogSpec_mem, mem_subTasks]
    constructor
    · rintro ⟨-, h2, h3⟩
      exact ⟨by omega, h3⟩
    · rintro ⟨h1, h3⟩
      exact ⟨by omega, by omega, h3⟩

/-- C2: failure isolation and settle-all completion in `processChunks`.
If the sub-task for (chunk `i`, type `t`) fails (modelled by replacing the
outcome oracle `gen` with `failAt gen i t`), then: (1) the issued sub-task log —
hence the fact that every chunk task runs all of its sub-tasks to settlement —
is unchanged; (2) for every other type `t'` the accumulated samples are exactly
the ones accumulated without the failure; (3) for every other chunk `j ≠ i`, the
samples the oracle yields for (chunk `j`, type `t`) are still appended to the
results entry of `t`. -/
theorem processChunks_failure_isolation {α : Type} (gen : Oracle α)
    (o : EngineOptions) (chunks : List String) (i : Nat) (t : DatasetType) :
    ((processChunks (failAt gen i t) o chunks).log = (processChunks gen o chunks).log)
    ∧ (∀ t', t' ≠ t →
        (processChunks (failAt gen i t) o chunks).res t' = (processChunks gen o chunks).res t')
    ∧ (∀ (j : Nat) (cj : String), j ≠ i → chunks[j]? = some cj → typeGuard o t = true →
        ∀ x ∈ (gen cj j t).getD [],
          x ∈ (processChunks (failAt gen i t) o chunks).res t) := by
  refine ⟨?_, ?_, ?_⟩
  · rw [processChunks_log, processChunks_log]
  · intro t' ht'
    rw [processChunks_res, processChunks_res]
    exact engineResSpec_agree gen (failAt gen i t) o t'
      (fun c j => by simp [failAt, ht']) 0 chunks
  · intro j cj hji hj ht x hx
    rw [processChunks_res]
    have hsub : t ∈ subTasks o := (mem_subTasks o t).mpr ht
    have hgen : (failAt gen i t) cj (0 + j) t = gen cj j t := by
      simp [failAt, hji]
    exact engineResSpec_mem (failAt gen i t) o t chunks 0 j cj hj hsub x
      (by rw [hgen]; exact hx)

/-! ### Output-inclusion filtering (`processContent`, lines 293-296) -/

/-- Embedding of `mapStandardTypeToLegacy` (src/cli/processingEngine.ts, lines 447-458):
maps a standard dataset type name to its legacy equivalent, `null` (`none`)
otherwise.  The source `switch`-free object lookup is rendered as a chain of
string comparisons. -/
def mapStandardTypeToLegacy (standardType : String) : Option String :=
  if standardType = "parallel_corpora" then some "parallel"
  else if standardType = "monolingual_text" then some "multilingual"
  else if standardType = "instruction_tuning" then some "instruction"
  else if standardType = "benchmark_evaluation" then some "classifier"
  else if standardType = "domain_specific" then some "multilingual"
  else if standardType = "web_crawled" then some "multilingual"
  else none

/-- Embedding of `mapIndicTypeToBase` (src/cli/processingEngine.ts, lines 465-474):
maps an indic dataset type name to its base (legacy) equivalent. -/
def mapIndicTypeToBase (indicType : String) : Option String :=
  if indicType = "indic_summarization" then some "summarization"
  else if indicType = "indic_translation" then some "parallel"
  else if indicType = "indic_qa" then some "qa"
  else if indicType = "indic_crosslingual_qa" then some "qa"
  else none

/-- The output-inclusion condition of `processContent` (lines 293-296): a
results entry of key `t` is surfaced (not `continue`d past) iff `t` is in
`options.type`, or some requested type maps to `t` under
`mapStandardTypeToLegacy`, or some requested type maps to `t` under
`mapIndicTypeToBase`. -/
def passesOutputFilter (requested : List String) (t : String) : Bool :=
  requested.contains t
    || requested.any (fun u => mapStandardTypeToLegacy u == some t)
    || requested.any (fun u => mapIndicTypeToBase u == some t)

/-- The six standard-category type names. -/
def standardTypeKeys : List String :=
  ["parallel_corpora", "monolingual_text", "instruction_tuning",
   "benchmark_evaluation", "domain_specific", "web_crawled"]

/-- The seven legacy type names. -/
def legacyTypeKeys : List String :=
  ["qa", "rp", "classifier", "multilingual", "parallel", "instruction", "summarization"]

theorem mapStandardTypeToLegacy_mem_legacy (u t : String)
    (h : mapStandardTypeToLegacy u = some t) : t ∈ legacyTypeKeys := by
  unfold mapStandardTypeToLegacy at h
  split_ifs at h <;> simp_all [legacyTypeKeys]

theorem mapIndicTypeToBase_mem_legacy (u t : String)
    (h : mapIndicTypeToBase u = some t) : t ∈ legacyTypeKeys := by
  unfold mapIndicTypeToBase at h
  split_ifs at h <;> simp_all [legacyTypeKeys]

theorem mapStandardTypeToLegacy_ne_standard (u t : String) (ht : t ∈ standardTypeKeys) :
    mapStandardTypeToLegacy u ≠ some t := by
  intro h
  have := mapStandardTypeToLegacy_mem_legacy u t h
  simp [standardTypeKeys, legacyTypeKeys] at ht this
  rcases ht with h | h | h | h | h | h <;> subst h <;> simp at this

theorem mapIndicTypeToBase_ne_standard (u t : String) (ht : t ∈ standardTypeKeys) :
    mapIndicTypeToBase u ≠ some t := by
  intro h
  have := mapIndicTypeToBase_mem_legacy u t h
  simp [standardTypeKeys, legacyTypeKeys] at ht this
  rcases ht with h | h | h | h | h | h <;> subst h <;> simp at this

/-! ### Claims C5 and C6 -/

/-- A concrete outcome oracle: the `parallel_corpora` generator produces one
sample, all other generators produce none. -/
def pcOnlyOracle : Oracle String :=
  fun _ _ t => if t = DatasetType.parallel_corpora then some ["pc-sample"] else some []

/-- C5 counterexample: run with `--dataset-format standard --type qa` over one
chunk.  The `parallel_corpora` generator runs (category shortcut) and produces a
sample, yet the output-inclusion filter of `processContent` does not surface the
`parallel_corpora` entry, because the filter consults only `options.type` and
the two alias maps — never `options.datasetFormat`. -/
theorem outputFilter_standard_shortcut_counterexample :
    (processChunks pcOnlyOracle ⟨["qa"], "standard"⟩ ["chunk one"]).res
        DatasetType.parallel_corpora = ["pc-sample"]
    ∧ passesOutputFilter ["qa"] "parallel_corpora" = false := by
  constructor
  · rfl
  · decide

/-- C5 amended: the output-inclusion filter ignores the `--dataset-format`
category shortcut entirely — a standard-category type is surfaced iff it
appears verbatim in the explicit `--type` list (no requested type alias-maps to
a standard-category name).  The shortcut affects generation fan-out only. -/
theorem outputFilter_standard_iff_requested (req : List String) (t : String)
    (ht : t ∈ standardTypeKeys) :
    passesOutputFilter req t = true ↔ t ∈ req := by
  simp only [passesOutputFilter, Bool.or_eq_true, List.any_eq_true, beq_iff_eq]
  constructor
  · rintro ((h | ⟨u, hu, h⟩) | ⟨u, hu, h⟩)
    · simpa using h
    · exact absurd h (mapStandardTypeToLegacy_ne_standard u t ht)
    · exact absurd h (mapIndicTypeToBase_ne_standard u t ht)
  · intro h
    exact Or.inl (Or.inl (by simpa using h))

/-- C5 amended, witness at a concrete input. -/
theorem outputFilter_standard_iff_requested_witness :
    passesOutputFilter ["parallel_corpora"] "parallel_corpora" = true
      ↔ "parallel_corpora" ∈ ["parallel_corpora"] :=
  outputFilter_standard_iff_requested ["parallel_corpora"] "parallel_corpora" (by decide)

/-- C6: alias-filter correctness — every type surfaced by the output-inclusion
filter is either directly requested, or is the legacy alias that some requested
type resolves to (under `mapStandardTypeToLegacy` or `mapIndicTypeToBase`).
In particular, requesting only `parallel_corpora` surfaces `parallel_corpora`
and its alias `parallel`, and never surfaces `qa` even if the `qa` entry was
internally populated. -/
theorem outputFilter_subset_of_requested :
    (∀ (req : List String) (t : String), passesOutputFilter req t = true →
        t ∈ req ∨ ∃ u ∈ req,
          (mapStandardTypeToLegacy u = some t ∨ mapIndicTypeToBase u = some t)
            ∧ t ∈ legacyTypeKeys)
    ∧ passesOutputFilter ["parallel_corpora"] "parallel_corpora" = true
    ∧ passesOutputFilter ["parallel_corpora"] "parallel" = true
    ∧ passesOutputFilter ["parallel_corpora"] "qa" = false := by
  refine ⟨?_, by decide, by decide, by decide⟩
  intro req t h
  simp only [passesOutputFilter, Bool.or_eq_true, List.any_eq_true, beq_iff_eq] at h
  rcases h with (h | ⟨u, hu, h⟩) | ⟨u, hu, h⟩
  · exact Or.inl (by simpa using h)
  · exact Or.inr ⟨u, hu, Or.inl h, mapStandardTypeToLegacy_mem_legacy u t h⟩
  · exact Or.inr ⟨u, hu, Or.inr h, mapIndicTypeToBase_mem_legacy u t h⟩

/-- C6, witness at a concrete input. -/
theorem outputFilter_subset_of_requested_witness :
    "parallel" ∈ ["parallel_corpora"]
      ∨ ∃ u ∈ ["parallel_corpora"],
          (mapStandardTypeToLegacy u = some "parallel" ∨ mapIndicTypeToBase u = some "parallel")
            ∧ "parallel" ∈ legacyTypeKeys :=
  outputFilter_subset_of_requested.1 ["parallel_corpora"] "parallel" (by decide)

/-! ### The serializer `saveInFormat` (src/formatters/datasetFormatters.ts) -/

/-- The content written to one output file by `saveInFormat`:
a wrapped JSON array (`JSON.stringify({ data })`), JSON lines, CSV text, or the
companion conversion-instructions text written for the parquet/arrow stubs. -/
inductive FileContent (α : Type) where
  | jsonArray (data : List α)
  | jsonLines (data : List α)
  | csv (data : List α)
  | conversionNote (fmt : String)
  deriving DecidableEq, Repr

/-- Result of one `saveInFormat` call: the files written (path × content, in
write order), the warnings logged, and the returned path. -/
structure SaveResult (α : Type) where
  writes : List (String × FileContent α)
  warnings : List String
  returned : String
  deriving DecidableEq, Repr

/-- Warning logged by the `default` branch of `saveInFormat`. -/
def unknownFormatWarning (format : String) : String :=
  "Unknown format \x27" ++ format ++ "\x27, saving as JSON"

/-- Note logged by the parquet/arrow stub branch of `saveInFormat`
(the source logs `format.toUpperCase()`). -/
def stubFormatNote (format : String) : String :=
  "Note: " ++ format.toUpper ++ " format requires additional processing with Arrow libraries."

/-- Embedding of `saveInFormat(data, outputPrefix, format)` (lines 119-164): computes
`outputPath = outputPrefix + "." + format` and switches on `format`; the
`parquet`/`arrow` stubs write the JSON-array form plus a companion text file;
the `default` branch warns and writes the JSON-array form at
`outputPrefix + ".json"`.  In every case the function returns `outputPath`,
never throwing. -/
def saveInFormat {α : Type} (data : List α) (pref format : String) : SaveResult α :=
  let outputPath := pref ++ "." ++ format
  if format = "json" then
    { writes := [(outputPath, FileContent.jsonArray data)], warnings := [], returned := outputPath }
  else if format = "jsonl" then
    { writes := [(outputPath, FileContent.jsonLines data)], warnings := [], returned := outputPath }
  else if format = "csv" then
    { writes := [(outputPath, FileContent.csv data)], warnings := [], returned := outputPath }
  else if format = "parquet" ∨ format = "arrow" then
    { writes := [(outputPath, FileContent.jsonArray data),
                 (pref ++ "." ++ format ++ "-conversion.txt", FileContent.conversionNote format)]
      warnings := [stubFormatNote format]
      returned := outputPath }
  else
    { writes := [(pref ++ ".json", FileContent.jsonArray data)]
      warnings := [unknownFormatWarning format]
      returned := outputPath }

/-- The format strings `saveInFormat` has a dedicated branch for. -/
def supportedFormats : List String := ["json", "jsonl", "csv", "parquet", "arrow"]

/-! ### Claim C7 -/

/-- C7 counterexample: for the unknown format string `"xml"`, `saveInFormat`
writes its artifact at `{prefix}.json`, not at the claimed deterministic path
`{prefix}.xml`, while still returning `{prefix}.xml` as the output path. -/
theorem saveInFormat_unknown_path_counterexample :
    ("p.xml" ∉ ((saveInFormat ([0] : List Nat) "p" "xml").writes.map Prod.fst))
    ∧ (saveInFormat ([0] : List Nat) "p" "xml").writes.map Prod.fst = ["p.json"]
    ∧ (saveInFormat ([0] : List Nat) "p" "xml").returned = "p.xml" := by
  refine ⟨by decide, by decide, by decide⟩

/-- C7 amended: `saveInFormat` always returns the deterministic path
`{prefix}.{format}` and never throws; for each supported format a file is
written at that path; for an unknown format it falls back to writing the
JSON-array form at `{prefix}.json` with a logged warning (so the artifact, in
that one case, is not at the returned `{prefix}.{format}` path). -/
theorem saveInFormat_deterministic_path {α : Type} (data : List α) (pref format : String) :
    (saveInFormat data pref format).returned = pref ++ "." ++ format
    ∧ (format ∈ supportedFormats →
        ∃ content, (pref ++ "." ++ format, content) ∈ (saveInFormat data pref format).writes)
    ∧ (format ∉ supportedFormats →
        (saveInFormat data pref format).writes = [(pref ++ ".json", FileContent.jsonArray data)]
        ∧ (saveInFormat data pref format).warnings = [unknownFormatWarning format]) := by
  unfold saveInFormat
  split_ifs with h1 h2 h3 h4
  · subst h1
    exact ⟨rfl, fun _ => ⟨FileContent.jsonArray data, by simp⟩, fun hn => absurd (by decide) hn⟩
  · subst h2
    exact ⟨rfl, fun _ => ⟨FileContent.jsonLines data, by simp⟩, fun hn => absurd (by decide) hn⟩
  · subst h3
    exact ⟨rfl, fun _ => ⟨FileContent.csv data, by simp⟩, fun hn => absurd (by decide) hn⟩
  · refine ⟨rfl, fun _ => ⟨FileContent.jsonArray data, by simp⟩, fun hn => ?_⟩
    rcases h4 with h | h <;> subst h <;> exact absurd (by decide) hn
  · refine ⟨rfl, fun hmem => ?_, fun _ => ⟨rfl, rfl⟩⟩
    exfalso
    simp [supportedFormats] at hmem
    rcases hmem with h | h | h | h | h <;> simp_all

/-- C7 amended, witness at a concrete input. -/
theorem saveInFormat_deterministic_path_witness :
    (saveInFormat ([0] : List Nat) "p" "xml").writes
        = [("p" ++ ".json", FileContent.jsonArray [0])]
    ∧ (saveInFormat ([0] : List Nat) "p" "xml").warnings = [unknownFormatWarning "xml"] :=
  (saveInFormat_deterministic_path [0] "p" "xml").2.2 (by decide)

/-! ### `processContent` at run level (src/cli/processingEngine.ts, lines 222-440) -/

/-- The fatal, run-aborting checks of `processContent` followed by its per-file
loop.  `textFiles` pairs each content file name with the chunk list
`readAndChunkContent` yields for it (possibly empty: `readAndChunkContent`
returns `[]` both for empty extracted content and on a read error).
`Except.error` models `process.exit(1)`; the per-file loop performs no
chunk-count check whatsoever, so it never errors.  The oracle takes the file
name first so each file gets its own sub-task outcomes. -/
def processContentRun {α : Type} (textFiles : List (String × List String))
    (o : EngineOptions) (upload : Bool) (repoId token : Option String)
    (gen : String → Oracle α) : Except String (List (EngineState α)) :=
  if textFiles.length = 0 then
    Except.error "No content files found. Please provide valid .txt or .pdf files."
  else if upload && repoId.isNone then
    Except.error "Error: --repo-id is required when using --upload"
  else if upload && token.isNone then
    Except.error "Error: Hugging Face token is required for uploads."
  else
    Except.ok (textFiles.map (fun f => processChunks (gen f.1) o f.2))

/-! ### Claim C8 -/

/-- C8 counterexample: an input file whose reading and chunking yields zero
content chunks is not a fatal error — the run completes normally
(`Except.ok`), with zero generation sub-tasks issued and empty results for that
file, instead of aborting. -/
theorem zeroChunks_not_fatal_counterexample :
    processContentRun [("book", ([] : List String))] ⟨["qa"], "legacy"⟩ false none none
        (fun _ _ _ _ => some ([] : List String))
      = Except.ok [{ log := [], res := fun _ => [] }] := by
  rfl

/-- C8 amended: zero content chunks for an input file is not an error at all:
the file is processed with an empty chunk list, which issues zero generation
invocations and leaves every results entry empty, and the run continues
normally (the only fatal checks of `processContent` are: no content files
found, `--upload` without `--repo-id`, and `--upload` without a token). -/
theorem zeroChunks_processed_normally {α : Type} (name : String) (o : EngineOptions)
    (gen : String → Oracle α) :
    processContentRun [(name, [])] o false none none gen
        = Except.ok [processChunks (gen name) o []]
    ∧ (processChunks (gen name) o []).log = []
    ∧ (∀ t, (processChunks (gen name) o []).res t = []) := by
  exact ⟨rfl, rfl, fun t => rfl⟩

/-! ### Generators (src/generators/datasetGenerators.ts and
src/generators/indicDatasetGenerators.ts)

Each generator takes `(chunk, computeInfo, fileName, chunkIndex, model,
sampleCount)` and awaits one `generateObject` call.  The model argument and the
prompt text are the opaque model collaborator; the outcome of the awaited call
is the explicit `modelResult` argument (`.ok` = fulfilled and schema-validated,
`.error` = any throw).  Each generator body is a single `try`/`catch` whose
`catch` logs and returns `{ samples: [] }`, so in the embedding every generator
is a total function into `GenResult` — the formal content of "always resolves,
never rejects". -/

/-- The `languageContext` of a run: `specs` (opaque payload used only in
prompts), the optional explicit language list and the Indic-inclusion flag
(fields of `ComputeInfo` in src/types/index.ts). -/
structure ComputeInfo where
  specs : Option String
  languages : Option (List String)
  includeIndic : Bool
  deriving DecidableEq, Repr

/-- The sample list a generator resolves with (`{ samples }`). -/
structure GenResult (σ : Type) where
  samples : List σ
  deriving DecidableEq, Repr

/-- JavaScript truthiness test on an optional string field:
`!field` holds for a missing field and for the empty string. -/
def jsFalsyStr : Option String → Bool
  | none => true
  | some s => s == ""

/-- JavaScript `haystack.includes(pattern)` for the nonempty literal patterns
used by `detectDomain`. -/
def strIncludes (s pat : String) : Bool := (s.splitOn pat).length ≥ 2

/-- Embedding of `detectDomain` (src/generators/indicDatasetGenerators.ts, lines 496-551):
keyword-based domain detection over the lowercased text. -/
def detectDomain (text : String) : String :=
  let t := text.toLower
  if strIncludes t "news" || strIncludes t "report" || strIncludes t "journalist"
      || strIncludes t "media" || strIncludes t "today" || strIncludes t "headlines" then
    "news"
  else if strIncludes t "research" || strIncludes t "study" || strIncludes t "scientific"
      || strIncludes t "data" || strIncludes t "analysis" || strIncludes t "technology" then
    "scientific"
  else if strIncludes t "law" || strIncludes t "legal" || strIncludes t "court"
      || strIncludes t "rights" || strIncludes t "justice" || strIncludes t "constitution" then
    "legal"
  else if strIncludes t "health" || strIncludes t "medical" || strIncludes t "doctor"
      || strIncludes t "patient" || strIncludes t "disease" || strIncludes t "treatment" then
    "medical"
  else if strIncludes t "education" || strIncludes t "school" || strIncludes t "student"
      || strIncludes t "learn" || strIncludes t "teacher" || strIncludes t "knowledge" then
    "educational"
  else
    "general"

/-- Optional metadata of a QA sample (qaSchema). -/
structure QAMetadata where
  requires_external_knowledge : Option Bool
  topic_area : Option String
  deriving DecidableEq, Repr

/-- One sample of the QA dataset (qaSchema; the zod enums `difficulty` and
`question_type` are strings constrained by validation). -/
structure QASample where
  question : String
  answer : String
  difficulty : String
  context : String
  question_type : String
  metadata : Option QAMetadata
  deriving DecidableEq, Repr

/-- Note appended by `generateQADataset` to answers shorter than 20 characters. -/
def qaShortAnswerNote : String :=
  " [Note: This answer has been expanded to provide more details based on the content.]"

/-- Post-processing of one QA sample (lines 170-176 of datasetGenerators.ts). -/
def postProcessQASample (s : QASample) : QASample :=
  if s.answer.length < 20 then { s with answer := s.answer ++ qaShortAnswerNote } else s

/-- Embedding of `generateQADataset` (lines 116-184).  The difficulty-distribution counts
computed from `sampleCount` only shape the prompt; the returned samples are the
model samples post-processed one-for-one — no truncation to `sampleCount` is
performed anywhere. -/
def generateQADataset (chunk : String) (computeInfo : ComputeInfo) (fileName : String)
    (chunkIndex sampleCount : Nat)
    (modelResult : Except String (List QASample)) : GenResult QASample :=
  match modelResult with
  | .ok obj => { samples := obj.map postProcessQASample }
  | .error _ => { samples := [] }

/-- One conversation turn of an RP sample (role is the zod enum
`user | assistant`). -/
structure RPTurn where
  role : String
  content : String
  deriving DecidableEq, Repr

/-- One sample of the role-playing dataset (rpSchema; the schema also requires
`example_conversation` to have at least 4 entries at validation time). -/
structure RPSample where
  scenario : String
  system_instruction : String
  example_conversation : List RPTurn
  complexity_level : String
  skills_demonstrated : List String
  deriving DecidableEq, Repr

/-- Text appended by `generateRPDataset` to system instructions shorter than 50
characters. -/
def rpInstructionSuffix : String :=
  " Be informative, accurate, and responsive to the specific details of the user\x27s questions. Base your responses only on the actual content provided about this topic."

/-- Filler user turn content used when padding a short conversation. -/
def rpUserFiller : String := "Could you elaborate more on that specific aspect?"

/-- Filler assistant turn content used when padding a short conversation. -/
def rpAssistantFiller : String :=
  "Certainly! Building on what I mentioned earlier, the content provides additional context that\x27s relevant here..."

/-- The filler turn pushed at position `k` of a short conversation:
a user turn at even positions, an assistant turn at odd positions
(`const isUser = sample.example_conversation.length % 2 === 0`). -/
def fillerTurn (k : Nat) : RPTurn :=
  if k % 2 = 0 then { role := "user", content := rpUserFiller }
  else { role := "assistant", content := rpAssistantFiller }

/-- The `while (sample.example_conversation.length < 4)` padding loop of
`generateRPDataset` (lines 241-251). -/
def padConversation (c : List RPTurn) : List RPTurn :=
  if h : c.length < 4 then padConversation (c ++ [fillerTurn c.length]) else c
termination_by 4 - c.length
decreasing_by simp [List.length_append]; omega

/-- Post-processing of one RP sample (lines 234-254): lengthen short system
instructions, then pad short conversations. -/
def enhanceRPSample (s : RPSample) : RPSample :=
  let s1 := if s.system_instruction.length < 50
            then { s with system_instruction := s.system_instruction ++ rpInstructionSuffix }
            else s
  { s1 with example_conversation := padConversation s1.example_conversation }

/-- Embedding of `generateRPDataset` (lines 195-262). -/
def generateRPDataset (chunk : String) (computeInfo : ComputeInfo) (fileName : String)
    (chunkIndex sampleCount : Nat)
    (modelResult : Except String (List RPSample)) : GenResult RPSample :=
  match modelResult with
  | .ok obj => { samples := obj.map enhanceRPSample }
  | .error _ => { samples := [] }

/-- One sample of the Indic summarization dataset (indicSummarizationSchema). -/
structure IndicSumSample where
  article : String
  summary : String
  language : String
  domain : Option String
  title : Option String
  deriving DecidableEq, Repr

/-- The `languageFixMap` of the Indic generators: full language names to ISO
codes. -/
def indicLanguageFixMap : List (String × String) :=
  [("hindi", "hi"), ("bengali", "bn"), ("telugu", "te"), ("tamil", "ta"),
   ("marathi", "mr"), ("gujarati", "gu"), ("kannada", "kn"), ("malayalam", "ml"),
   ("punjabi", "pa"), ("odia", "or"), ("assamese", "as"), ("sanskrit", "sa")]

/-- Lookup in `languageFixMap`. -/
def lookupLanguageFix (lang : String) : Option String :=
  (indicLanguageFixMap.find? (fun p => p.1 == lang)).map Prod.snd

/-- The ISO-code keys of the `INDIC_LANGUAGES` table of
src/generators/indicDatasetGenerators.ts. -/
def indicLanguagesCodes : List String :=
  ["hi", "bn", "te", "ta", "mr", "gu", "kn", "ml", "pa", "or", "as", "sa", "ur", "ar", "en"]

/-- The `selectedLanguages` computation of `generateIndicSummarizationDataset`
(lines 95-102); it shapes only the prompt.  Note the JavaScript evaluation:
`a && a.filter(f) || KEYS` yields the (possibly empty, still truthy) filtered
array when `a` is defined and `KEYS` otherwise. -/
def indicSelectedLanguages (ci : ComputeInfo) : List String :=
  let languagesToUse := match ci.languages with
    | some ls => ls.filter (fun l => indicLanguagesCodes.contains l)
    | none => indicLanguagesCodes
  if languagesToUse.length > 0 then languagesToUse
  else ["hi", "bn", "ta", "te", "mr", "ml"]

/-- Post-processing of one Indic summarization sample (lines 136-166):
fix full language names to codes (lookup on the lowercased, trimmed value) and
default a missing/empty domain by keyword detection on the article. -/
def enhanceIndicSumSample (s : IndicSumSample) : IndicSumSample :=
  let lang := (s.language.toLower).trim
  let s1 := match lookupLanguageFix lang with
            | some code => { s with language := code }
            | none => s
  if jsFalsyStr s1.domain then { s1 with domain := some (detectDomain s1.article) } else s1

/-- Embedding of `generateIndicSummarizationDataset`
(src/generators/indicDatasetGenerators.ts, lines 86-173). -/
def generateIndicSummarizationDataset (chunk : String) (computeInfo : ComputeInfo)
    (fileName : String) (chunkIndex sampleCount : Nat)
    (modelResult : Except String (List IndicSumSample)) : GenResult IndicSumSample :=
  match modelResult with
  | .ok obj => { samples := obj.map enhanceIndicSumSample }
  | .error _ => { samples := [] }

/-- One sample of the legacy parallel corpus dataset (parallelCorpusSchema). -/
structure ParallelSample where
  source : String
  target : String
  source_lang : String
  target_lang : String
  domain : Option String
  complexity : Option String
  deriving DecidableEq, Repr

/-- The `languages.forEach` loop of `generateLanguagePairs`: pairs between
English and every other language. -/
def enPairsOf : List String → List (String × String)
  | [] => []
  | l :: ls => (if l ≠ "en" then [("en", l), (l, "en")] else []) ++ enPairsOf ls

/-- Inner loop of the `i < j` double loop of `generateLanguagePairs`. -/
def crossWith (x : String) : List String → List (String × String)
  | [] => []
  | y :: ys => (if x ≠ "en" ∧ y ≠ "en" then [(x, y), (y, x)] else []) ++ crossWith x ys

/-- The `i < j` double loop of `generateLanguagePairs`: pairs between every two
non-English languages. -/
def crossPairsOf : List String → List (String × String)
  | [] => []
  | x :: xs => crossWith x xs ++ crossPairsOf xs

/-- Embedding of `generateLanguagePairs` (src/generators/datasetGenerators.ts, lines
483-511).  `languages.push('en')` mutates the caller's array in place, so the
embedding returns the updated array alongside the pairs. -/
def generateLanguagePairs (languages : List String) : List String × List (String × String) :=
  let langs := if languages.contains "en" then languages else languages ++ ["en"]
  (langs, enPairsOf langs ++ crossPairsOf langs)

/-- The `defaultLanguagePairs` of `generateParallelCorpusDataset`. -/
def defaultLanguagePairs : List (String × String) :=
  [("en", "hi"), ("hi", "en"), ("en", "ta"), ("ta", "en")]

/-- Language-pair selection of `generateParallelCorpusDataset` (lines 522-537):
user-selected languages feed `generateLanguagePairs` (mutating the shared
`computeInfo.languages` array), otherwise the defaults are used.  Returns the
post-call `ComputeInfo` and the pairs. -/
def parallelSetup (computeInfo : ComputeInfo) : ComputeInfo × List (String × String) :=
  match computeInfo.languages with
  | some ls =>
      if ls.length > 0 then
        let r := generateLanguagePairs ls
        ({ computeInfo with languages := some r.1 }, r.2)
      else (computeInfo, defaultLanguagePairs)
  | none => (computeInfo, defaultLanguagePairs)

/-- Post-processing of one parallel corpus sample (lines 583-599),
parameterized by the language-utils collaborators `normalizeLanguageCode` and
`detectDomain` (src/utils/languageUtils.ts). -/
def enhanceParallelSample (normalize detect : String → String) (s : ParallelSample) :
    ParallelSample :=
  let s1 := { s with source_lang := normalize s.source_lang
                     target_lang := normalize s.target_lang }
  let s2 := if jsFalsyStr s1.complexity then { s1 with complexity := some "standard" } else s1
  if jsFalsyStr s2.domain then { s2 with domain := some (detect s2.source) } else s2

/-- Embedding of `generateParallelCorpusDataset` (lines 513-614).  The language-pair setup
runs before the awaited model call, so its mutation of `computeInfo.languages`
happens on the failure path too; the post-call `ComputeInfo` is returned as the
second component.  Samples not matching a requested pair are filtered out. -/
def generateParallelCorpusDataset (normalize detect : String → String)
    (chunk : String) (computeInfo : ComputeInfo) (fileName : String)
    (chunkIndex sampleCount : Nat)
    (modelResult : Except String (List ParallelSample)) :
    GenResult ParallelSample × ComputeInfo :=
  let setup := parallelSetup computeInfo
  match modelResult with
  | .error _ => ({ samples := [] }, setup.1)
  | .ok obj =>
      let enhanced := obj.map (enhanceParallelSample normalize detect)
      let valid := enhanced.filter (fun s =>
        setup.2.any (fun p => p.1 == s.source_lang && p.2 == s.target_lang))
      ({ samples := valid }, setup.1)

/-- One entry of the standard parallel corpora dataset
(parallelCorporaSchema of src/generators/standardDatasetGenerators.ts):
dynamic language-keyed string fields, modelled as a key-value list.  The
object rebuild of the post-processing overwrites colliding keys; collisions
arise only for keys differing in case, which the language-name keys of the
schema never do. -/
abbrev ParallelCorpusEntry : Type := List (String × String)

/-- The fresh default language-name array of `generateParallelCorporaDataset`
(line 118); pushes into it do not affect `computeInfo`. -/
def corporaDefaultLanguages : List String :=
  ["english", "french", "spanish", "german", "chinese", "arabic", "hindi"]

/-- The five language names the Indic branch of
`generateParallelCorporaDataset` pushes (lines 122-128). -/
def indicPushNames : List String := ["hindi", "bengali", "tamil", "telugu", "marathi"]

/-- The `forEach`/`push` loop of lines 123-127: append each name not already
present (the membership check runs against the growing array). -/
def pushMissing (ls names : List String) : List String :=
  names.foldl (fun acc lang => if lang ∈ acc then acc else acc ++ [lang]) ls

/-- Language selection of `generateParallelCorporaDataset`
(standardDatasetGenerators.ts, lines 116-128), returning the post-call
`ComputeInfo` and the selected names.  JavaScript `computeInfo.languages ||
default` takes the explicit array whenever it is set — even when empty, since
arrays are truthy — and then aliases the shared array, so the Indic push loop
mutates `computeInfo.languages` in place; with no explicit list the pushes go
into the fresh default array and `computeInfo` is untouched. -/
def corporaLanguageSetup (computeInfo : ComputeInfo) : ComputeInfo × List String :=
  match computeInfo.languages with
  | some ls =>
      let selected := if computeInfo.includeIndic then pushMissing ls indicPushNames else ls
      ({ computeInfo with languages := some selected }, selected)
  | none =>
      let selected := if computeInfo.includeIndic
                      then pushMissing corporaDefaultLanguages indicPushNames
                      else corporaDefaultLanguages
      (computeInfo, selected)

/-- Post-processing of one parallel corpora entry (lines 160-168):
lowercase every language key. -/
def standardizeEntry (s : ParallelCorpusEntry) : ParallelCorpusEntry :=
  s.map (fun p => (p.1.toLower, p.2))

/-- Embedding of `generateParallelCorporaDataset`
(src/generators/standardDatasetGenerators.ts, lines 110-175).  The language
selection — and with it the in-place mutation of a shared explicit language
array — runs before the awaited model call, so it happens on the failure path
too; the post-call `ComputeInfo` is returned as the second component. -/
def generateParallelCorporaDataset (chunk : String) (computeInfo : ComputeInfo)
    (fileName : String) (chunkIndex sampleCount : Nat)
    (modelResult : Except String (List ParallelCorpusEntry)) :
    GenResult ParallelCorpusEntry × ComputeInfo :=
  let setup := corporaLanguageSetup computeInfo
  match modelResult with
  | .error _ => ({ samples := [] }, setup.1)
  | .ok obj => ({ samples := obj.map standardizeEntry }, setup.1)

/-! ### Claim C3 -/

/-- C3: generators never reject.  In the embedding each generator is a total
function into `GenResult` (never an exceptional value), and on any throw of the
underlying model call or schema validation (`modelResult = .error e`) the
internal `catch` returns the empty sample list `{ samples := [] }`, for every
input. -/
theorem generators_never_reject :
    (∀ (chunk : String) (ci : ComputeInfo) (fn : String) (idx sc : Nat) (e : String),
        generateQADataset chunk ci fn idx sc (Except.error e) = { samples := [] })
    ∧ (∀ (chunk : String) (ci : ComputeInfo) (fn : String) (idx sc : Nat) (e : String),
        generateIndicSummarizationDataset chunk ci fn idx sc (Except.error e)
          = { samples := [] }) :=
  ⟨fun _ _ _ _ _ _ => rfl, fun _ _ _ _ _ _ => rfl⟩

/-! ### Claim C4 -/

/-- A concrete QA sample with a long answer (so post-processing keeps it). -/
def qaSampleLong : QASample :=
  { question := "What is discussed?"
    answer := "This answer certainly has at least twenty characters in it."
    difficulty := "basic"
    context := "ctx"
    question_type := "factual"
    metadata := none }

/-- C4 counterexample: with requested sample count 1, a model response carrying
2 samples is returned in full — `generateQADataset` performs no truncation, so
the returned list length exceeds the requested count. -/
theorem generator_no_truncation_counterexample :
    ((generateQADataset "chunk" ⟨none, none, false⟩ "f" 0 1
        (Except.ok [qaSampleLong, qaSampleLong])).samples).length = 2
    ∧ ¬(((generateQADataset "chunk" ⟨none, none, false⟩ "f" 0 1
        (Except.ok [qaSampleLong, qaSampleLong])).samples).length ≤ 1) :=
  ⟨rfl, by decide⟩

/-- Auxiliary bound: if every sub-task outcome carries at most `s` samples,
the accumulated samples of any type over the chunk list are at most
`(number of chunks) × s`. -/
theorem engineResSpec_length_le {α : Type} (gen : Oracle α) (o : EngineOptions)
    (u : DatasetType) (s : Nat) (hbound : ∀ c i t, ((gen c i t).getD []).length ≤ s) :
    ∀ (i : Nat) (cs : List String), (engineResSpec gen o u i cs).length ≤ cs.length * s := by
  intro i cs
  induction cs generalizing i with
  | nil => simp [engineResSpec]
  | cons c cs ih =>
      simp only [engineResSpec, List.length_append, List.length_cons]
      have h1 : (if u ∈ subTasks o then (gen c i u).getD [] else []).length ≤ s := by
        split
        · exact hbound c i u
        · simp
      have h2 := ih (i + 1)
      rw [Nat.succ_mul]
      omega

/-- C4 amended: a generator returns exactly one sample per model-returned
sample (its length equals the model list length — no truncation), so the
returned length is at most the requested count only when the model returns at
most that many; under the assumption that every sub-task outcome carries at
most `s` samples, the accumulated ResultsMap entry of any type after processing
N chunks has between 0 and N × s samples. -/
theorem generator_length_and_aggregate_bound {α : Type} (gen : Oracle α)
    (o : EngineOptions) (chunks : List String) (s : Nat)
    (hbound : ∀ c i t, ((gen c i t).getD []).length ≤ s) :
    (∀ (chunk : String) (ci : ComputeInfo) (fn : String) (idx sc : Nat)
        (samples : List QASample),
        ((generateQADataset chunk ci fn idx sc (Except.ok samples)).samples).length
          = samples.length)
    ∧ (∀ t, ((processChunks gen o chunks).res t).length ≤ chunks.length * s) := by
  constructor
  · intro chunk ci fn idx sc samples
    simp [generateQADataset]
  · intro t
    rw [processChunks_res]
    exact engineResSpec_length_le gen o t s hbound 0 chunks

/-- A concrete outcome oracle yielding exactly one sample per sub-task. -/
def oneSampleOracle : Oracle String := fun _ _ _ => some ["x"]

/-- C4 amended, witness at a concrete input. -/
theorem generator_length_and_aggregate_bound_witness :
    ((processChunks oneSampleOracle ⟨["qa"], "legacy"⟩ ["c"]).res DatasetType.qa).length
      ≤ 1 * 1 :=
  (generator_length_and_aggregate_bound oneSampleOracle ⟨["qa"], "legacy"⟩ ["c"] 1
    (fun _ _ _ => Nat.le.refl)).2 DatasetType.qa

/-! ### Claim C9 -/

/-- A language context carrying the single explicit language "hi". -/
def ciHindi : ComputeInfo := { specs := none, languages := some ["hi"], includeIndic := false }

/-- C9 counterexample: one `generateParallelCorpusDataset` invocation with
explicit languages `["hi"]` mutates the shared `computeInfo.languages` array
(`generateLanguagePairs` pushes `"en"`, before the model call, so also on a
failing invocation): the array observed afterwards is `["hi", "en"]`, not
element-for-element equal to the `["hi"]` supplied at the start of the run. -/
theorem languageContext_mutated_counterexample :
    ((generateParallelCorpusDataset id id "c" ciHindi "f" 0 3
        (Except.error "model failure")).2).languages = some ["hi", "en"]
    ∧ some ["hi", "en"] ≠ ciHindi.languages :=
  ⟨rfl, by decide⟩

/-- Closed form of the push loop: when the pushed names are pairwise distinct,
each name not already in the list is appended once, in order. -/
theorem pushMissing_eq_filter :
    ∀ (names ls : List String), names.Nodup →
      pushMissing ls names = ls ++ names.filter (fun n => decide (n ∉ ls)) := by
  intro names
  induction names with
  | nil => intro ls _; simp [pushMissing]
  | cons n ns ih =>
      intro ls hnd
      rcases List.nodup_cons.mp hnd with ⟨hn, hns⟩
      by_cases hc : n ∈ ls
      · simp only [pushMissing, List.foldl_cons, if_pos hc]
        have h1 := ih ls hns
        simp only [pushMissing] at h1
        rw [h1]
        simp [List.filter_cons, hc]
      · simp only [pushMissing, List.foldl_cons, if_neg hc]
        have h1 := ih (ls ++ [n]) hns
        simp only [pushMissing] at h1
        rw [h1]
        have hfil : ns.filter (fun m => decide (m ∉ ls ++ [n]))
            = ns.filter (fun m => decide (m ∉ ls)) := by
          apply List.filter_congr
          intro m hm
          have hmn : m ≠ n := fun h => hn (h ▸ hm)
          simp [List.mem_append, hmn]
        rw [hfil]
        simp [List.filter_cons, hc, List.append_assoc]

/-- Post-state of the legacy parallel generator's language-pair setup. -/
theorem parallelSetup_fst (sp : Option String) (lgs : Option (List String)) (ii : Bool) :
    (parallelSetup ⟨sp, lgs, ii⟩).1
      = ⟨sp,
         (match lgs with
          | some ls => some (if ls.length > 0
                             then (if ls.contains "en" then ls else ls ++ ["en"])
                             else ls)
          | none => none),
         ii⟩ := by
  cases lgs with
  | none => rfl
  | some ls =>
      by_cases hlen : ls.length > 0
      · by_cases hen : ls.contains "en" = true
        · simp [parallelSetup, hlen, generateLanguagePairs, hen]
        · simp [parallelSetup, hlen, generateLanguagePairs, hen]
      · simp [parallelSetup, hlen]

/-- Post-state of the standard parallel corpora generator's language
selection. -/
theorem corporaLanguageSetup_fst (sp : Option String) (lgs : Option (List String)) (ii : Bool) :
    (corporaLanguageSetup ⟨sp, lgs, ii⟩).1
      = ⟨sp,
         (match lgs with
          | some ls => some (if ii then pushMissing ls indicPushNames else ls)
          | none => none),
         ii⟩ := by
  cases lgs <;> rfl

/-- C9 amended: the shared language context is mutated mid-run by the two
parallel generators, in both cases before the awaited model call (hence also on
failing invocations).  Legacy `generateParallelCorpusDataset`: with a nonempty
explicit language list lacking `"en"` it appends `"en"`; with `"en"` present,
an empty list, or no list, it leaves the context unchanged.  Standard
`generateParallelCorporaDataset`: with an explicit language list set and the
Indic-inclusion flag on, it appends each of the five Indic language names not
already present; with the flag off it leaves the context unchanged, and with no
explicit list its pushes go into a fresh default array, leaving the context
unchanged.  Neither generator mutates the Indic-inclusion flag or the specs. -/
theorem parallelGenerators_languageContext_effect
    (normalize detect : String → String) (chunk : String) (ci : ComputeInfo)
    (fn : String) (idx sc : Nat) (mr : Except String (List ParallelSample))
    (mr2 : Except String (List ParallelCorpusEntry)) :
    (((generateParallelCorpusDataset normalize detect chunk ci fn idx sc mr).2).includeIndic
        = ci.includeIndic
      ∧ ((generateParallelCorpusDataset normalize detect chunk ci fn idx sc mr).2).specs
          = ci.specs
      ∧ ((generateParallelCorpusDataset normalize detect chunk ci fn idx sc mr).2).languages
          = (match ci.languages with
             | some ls => some (if ls.length > 0
                                then (if ls.contains "en" then ls else ls ++ ["en"])
                                else ls)
             | none => none)
      ∧ (∀ ls, ci.languages = some ls → ls.contains "en" = true →
          (generateParallelCorpusDataset normalize detect chunk ci fn idx sc mr).2 = ci))
    ∧ (((generateParallelCorporaDataset chunk ci fn idx sc mr2).2).includeIndic
        = ci.includeIndic
      ∧ ((generateParallelCorporaDataset chunk ci fn idx sc mr2).2).specs = ci.specs
      ∧ ((generateParallelCorporaDataset chunk ci fn idx sc mr2).2).languages
          = (match ci.languages with
             | some ls => some (if ci.includeIndic
                                then ls ++ indicPushNames.filter (fun n => decide (n ∉ ls))
                                else ls)
             | none => none)
      ∧ (ci.includeIndic = false →
          (generateParallelCorporaDataset chunk ci fn idx sc mr2).2 = ci)) := by
  obtain ⟨sp, lgs, ii⟩ := ci
  have hsnd : (generateParallelCorpusDataset normalize detect chunk ⟨sp, lgs, ii⟩ fn idx sc mr).2
      = (parallelSetup ⟨sp, lgs, ii⟩).1 := by
    cases mr <;> rfl
  have hsnd2 : (generateParallelCorporaDataset chunk ⟨sp, lgs, ii⟩ fn idx sc mr2).2
      = (corporaLanguageSetup ⟨sp, lgs, ii⟩).1 := by
    cases mr2 <;> rfl
  refine ⟨⟨by rw [hsnd, parallelSetup_fst], by rw [hsnd, parallelSetup_fst],
           by rw [hsnd, parallelSetup_fst], ?_⟩,
          ⟨by rw [hsnd2, corporaLanguageSetup_fst], by rw [hsnd2, corporaLanguageSetup_fst],
           ?_, ?_⟩⟩
  · intro ls hls hen
    rw [hsnd, parallelSetup_fst]
    simp only at hls
    subst hls
    have hmem : "en" ∈ ls := by simpa using hen
    simp [hen, hmem]
  · rw [hsnd2, corporaLanguageSetup_fst]
    clear hsnd hsnd2
    cases lgs with
    | none => rfl
    | some ls =>
        dsimp only
        rw [pushMissing_eq_filter indicPushNames ls (by decide)]
  · intro h
    subst h
    rw [hsnd2, corporaLanguageSetup_fst]
    clear hsnd hsnd2
    cases lgs <;> simp

/-- C9 amended, witness at concrete inputs: the legacy generator leaves a list
already containing `"en"` unchanged, and the standard generator leaves the
context unchanged when the Indic-inclusion flag is off. -/
theorem parallelGenerators_languageContext_effect_witness :
    ((generateParallelCorpusDataset id id "c" ⟨none, some ["en", "hi"], false⟩ "f" 0 1
        (Except.error "e")).2 = ⟨none, some ["en", "hi"], false⟩)
    ∧ ((generateParallelCorporaDataset "c" ⟨none, some ["hi"], false⟩ "f" 0 1
        (Except.error "e")).2 = ⟨none, some ["hi"], false⟩) :=
  ⟨(parallelGenerators_languageContext_effect id id "c" ⟨none, some ["en", "hi"], false⟩
      "f" 0 1 (Except.error "e") (Except.error "e")).1.2.2.2 ["en", "hi"] rfl (by decide),
   (parallelGenerators_languageContext_effect id id "c" ⟨none, some ["hi"], false⟩
      "f" 0 1 (Except.error "e") (Except.error "e")).2.2.2.2 rfl⟩

/-! ### Claim C10 -/

theorem pad_step (c : List RPTurn) (h : c.length < 4) :
    padConversation c = padConversation (c ++ [fillerTurn c.length]) := by
  rw [padConversation]
  rw [dif_pos h]

theorem pad_done (c : List RPTurn) (h : ¬c.length < 4) : padConversation c = c := by
  rw [padConversation]
  rw [dif_neg h]

/-- Closed form of the padding loop: a conversation shorter than 4 turns gets
one filler turn appended at each position from its length up to 3; a
conversation of 4 or more turns is unchanged. -/
theorem padConversation_spec_aux :
    ∀ (n : Nat) (c : List RPTurn), 4 - c.length ≤ n →
      padConversation c
        = if c.length < 4
          then c ++ (List.range (4 - c.length)).map (fun j => fillerTurn (c.length + j))
          else c := by
  intro n
  induction n with
  | zero =>
      intro c hc
      have h4 : ¬c.length < 4 := by omega
      rw [pad_done c h4, if_neg h4]
  | succ n ih =>
      intro c hc
      by_cases h : c.length < 4
      · rw [if_pos h, pad_step c h]
        have hlen : (c ++ [fillerTurn c.length]).length = c.length + 1 := by simp
        have hrec := ih (c ++ [fillerTurn c.length]) (by rw [hlen]; omega)
        rw [hrec, hlen]
        by_cases h2 : c.length + 1 < 4
        · rw [if_pos h2]
          have h3 : 4 - c.length = (4 - (c.length + 1)) + 1 := by omega
          rw [h3, List.range_succ_eq_map, List.map_cons, List.map_map]
          have hfun : ((fun j => fillerTurn (c.length + j)) ∘ Nat.succ)
              = fun j => fillerTurn (c.length + 1 + j) := by
            funext j
            simp only [Function.comp]
            congr 1
            omega
          rw [hfun]
          simp
        · rw [if_neg h2]
          have h3 : c.length = 3 := by omega
          rw [h3]
          have h4 : 4 - 3 = 1 := by omega
          rw [h4]
          rfl
      · rw [if_neg h, pad_done c h]

/-- C10: every role-playing sample returned by `generateRPDataset` has an
example conversation of at least 4 turns; the padding loop appends alternating
filler turns — exactly one at each missing position, a user turn at even
positions and an assistant turn at odd positions — until length 4 is reached,
and leaves longer conversations unchanged. -/
theorem rp_conversation_min_turns :
    (∀ (chunk : String) (ci : ComputeInfo) (fn : String) (idx sc : Nat)
        (mr : Except String (List RPSample)) (s : RPSample),
        s ∈ (generateRPDataset chunk ci fn idx sc mr).samples →
          4 ≤ s.example_conversation.length)
    ∧ (∀ c : List RPTurn,
        padConversation c
          = if c.length < 4
            then c ++ (List.range (4 - c.length)).map (fun j => fillerTurn (c.length + j))
            else c)
    ∧ (∀ k, (fillerTurn k).role = if k % 2 = 0 then "user" else "assistant") := by
  have hspec : ∀ c : List RPTurn,
      padConversation c
        = if c.length < 4
          then c ++ (List.range (4 - c.length)).map (fun j => fillerTurn (c.length + j))
          else c :=
    fun c => padConversation_spec_aux (4 - c.length) c le_rfl
  have hconv : ∀ s : RPSample,
      (enhanceRPSample s).example_conversation = padConversation s.example_conversation := by
    intro s
    by_cases h : s.system_instruction.length < 50 <;> simp [enhanceRPSample, h]
  have hlen : ∀ c : List RPTurn, 4 ≤ (padConversation c).length := by
    intro c
    rw [hspec]
    split
    · rename_i hlt
      simp only [List.length_append, List.length_map, List.length_range]
      omega
    · rename_i hge
      omega
  refine ⟨?_, hspec, ?_⟩
  · intro chunk ci fn idx sc mr s hs
    cases mr with
    | error e => simp [generateRPDataset] at hs
    | ok obj =>
        simp only [generateRPDataset, List.mem_map] at hs
        obtain ⟨s0, _, hs0⟩ := hs
        subst hs0
        rw [hconv]
        exact hlen s0.example_conversation
  · intro k
    by_cases hk : k % 2 = 0 <;> simp [fillerTurn, hk]

/-- A concrete RP sample with an empty conversation (shorter than the schema
minimum, exercising the padding path). -/
def rpSampleTiny : RPSample :=
  { scenario := "a short scenario"
    system_instruction := "act as a knowledgeable guide for the provided content at all times"
    example_conversation := []
    complexity_level := "beginner"
    skills_demonstrated := [] }

/-- C10, witness at a concrete input. -/
theorem rp_conversation_min_turns_witness :
    4 ≤ (enhanceRPSample rpSampleTiny).example_conversation.length :=
  rp_conversation_min_turns.1 "c" ⟨none, none, false⟩ "f" 0 1 (Except.ok [rpSampleTiny])
    (enhanceRPSample rpSampleTiny)
    (by simp [generateRPDataset])

/-- A concrete outcome oracle: every sub-task yields one sample carrying its
chunk text. -/
def chunkEchoOracle : Oracle String := fun c _ _ => some [c]

/-- C2, witness at a concrete input: with the (chunk 0, qa) sub-task failing
over two chunks, the rp results are unchanged, and the chunk-1 qa sample is
still appended. -/
theorem processChunks_failure_isolation_witness :
    ((processChunks (failAt chunkEchoOracle 0 DatasetType.qa) ⟨["qa", "rp"], "legacy"⟩
          ["c0", "c1"]).res DatasetType.rp
        = (processChunks chunkEchoOracle ⟨["qa", "rp"], "legacy"⟩ ["c0", "c1"]).res
            DatasetType.rp)
    ∧ "c1" ∈ (processChunks (failAt chunkEchoOracle 0 DatasetType.qa) ⟨["qa", "rp"], "legacy"⟩
          ["c0", "c1"]).res DatasetType.qa :=
  ⟨(processChunks_failure_isolation chunkEchoOracle ⟨["qa", "rp"], "legacy"⟩ ["c0", "c1"] 0
      DatasetType.qa).2.1 DatasetType.rp (by decide),
   (processChunks_failure_isolation chunkEchoOracle ⟨["qa", "rp"], "legacy"⟩ ["c0", "c1"] 0
      DatasetType.qa).2.2 1 "c1" (by decide) rfl (by decide) "c1" (by decide)⟩

end TuneForge
